import Mathlib

/-!
Verification of the client-side TTL cache and the reconnecting WebSocket
channel of py-perf-viewer, as a shallow embedding in Lean 4.

The cache layer (`setCache`, `getCache`, `hasValidCache`, `clearCache`,
`getCacheStats`, `cleanupExpiredCache`) is translated from the cache
utilities of the Vue application (`src/utils/cache.js`, bundled alongside
`App.vue`); the Pinia store actions (`fetchDashboardData`,
`fetchHostMetrics`) from `src/stores/system.js`; and the WebSocket service
from `src/services/websocket.js`.

JavaScript specifics made explicit in the embedding:
  * `localStorage` is an explicit association list of string keys to stored
    strings, threaded through each operation; stored strings are modelled by
    `Stored` (a parseable serialized cache item, or a string on which
    `JSON.parse` throws).  Backend failures (quota, security errors) are
    modelled by per-operation failure flags on the storage state.
  * `Date.now()` is an explicit `now : Int` argument (epoch milliseconds).
  * JS exceptions are `Except String`; a `try`/`catch` block is a `match` on
    the `Except` result.
  * JS truthiness tests (`if (cachedData)`, `if (data.type)`) are the
    explicit `truthy` function.
  * `String.prototype.startsWith` is `jsStartsWith`, defined on character
    lists so that concrete instances evaluate by kernel reduction.
-/

namespace PyPerfViewer

/-- A JSON-representable JavaScript value (`null`, booleans, integral
numbers, strings, objects).  Objects are encoded as flat field lists:
`vobjCons k v rest`, ending in `vobjNil`.  This is the payload type stored
in the cache and carried by WebSocket messages. -/
inductive Val where
  | vnull
  | vbool (b : Bool)
  | vint (n : Int)
  | vstr (s : String)
  | vobjNil
  | vobjCons (key : String) (value : Val) (rest : Val)
deriving DecidableEq, Repr, Inhabited

/-- JavaScript truthiness of a `Val` (`null`, `false`, `0` and `""` are
falsy; every object is truthy). -/
def truthy : Val → Bool
  | .vnull => false
  | .vbool b => b
  | .vint n => n != 0
  | .vstr s => s != ""
  | .vobjNil => true
  | .vobjCons _ _ _ => true

/-- Property access `v[k]` on a `Val`: `some` of the field value when `v` is
an object with field `k`, `none` (JS `undefined`) otherwise. -/
def Val.getField : Val → String → Option Val
  | .vobjCons k v rest, key => if k == key then some v else rest.getField key
  | _, _ => none

/-- JS `String.prototype.startsWith`, modelled on character lists. -/
def jsStartsWith (s pre : String) : Bool := pre.toList.isPrefixOf s.toList

/-- A string held in `localStorage`, as seen by the cache layer:
either the serialization of a cache item `{data, timestamp, ttl}` (which
`JSON.parse` recovers exactly), or a string on which `JSON.parse` throws. -/
inductive Stored where
  | item (data : Val) (timestamp : Int) (ttl : Int)
  | corrupt (raw : String)
deriving DecidableEq, Repr

/-- Serialized form of a `Val`, mirroring `JSON.stringify` (string escaping
not modelled; used only for the `size` fields of `getCacheStats`). -/
def encodeVal : Val → String
  | .vnull => "null"
  | .vbool true => "true"
  | .vbool false => "false"
  | .vint n => toString n
  | .vstr s => "\"" ++ s ++ "\""
  | .vobjNil => "\x7b\x7d"
  | .vobjCons k v rest => "\x7b\"" ++ k ++ "\":" ++ encodeVal v ++ encodeFields rest
where
  /-- Remaining fields of an object, each preceded by a comma, closed by
  the final brace. -/
  encodeFields : Val → String
  | .vobjCons k v rest => ",\"" ++ k ++ "\":" ++ encodeVal v ++ encodeFields rest
  | _ => "\x7d"

/-- Serialized form of a stored string (`JSON.stringify` of a cache item, or
the raw corrupt string itself). -/
def encodeStored : Stored → String
  | .item d ts ttl => "\x7b\"data\":" ++ encodeVal d ++ ",\"timestamp\":" ++
      toString ts ++ ",\"ttl\":" ++ toString ttl ++ "\x7d"
  | .corrupt raw => raw

/-- `JSON.parse` applied to a stored string, returning the cache item fields
or throwing. -/
def parseStored : Stored → Except String (Val × Int × Int)
  | .item d ts ttl => .ok (d, ts, ttl)
  | .corrupt _ => .error "SyntaxError: Unexpected token in JSON"

/-- The browser `localStorage` visible to the cache layer: an association
list from keys to stored strings, plus failure flags injecting the storage
backend exceptions (`getItem`/`setItem`/`removeItem` throwing). -/
structure LS where
  store : List (String × Stored)
  failGet : Bool := false
  failSet : Bool := false
  failRemove : Bool := false
deriving DecidableEq, Repr

/-- `localStorage.getItem(key)`: the first binding for `key`, or `null`;
throws when the backend fails. -/
def LS.getItem (ls : LS) (key : String) : Except String (Option Stored) :=
  if ls.failGet then .error "storage getItem failure"
  else .ok ((ls.store.find? (fun p => p.1 == key)).map Prod.snd)

/-- `localStorage.setItem(key, value)`: overwrite the binding for `key`, or
append it; throws when the backend fails (e.g. quota exceeded). -/
def LS.setItem (ls : LS) (key : String) (v : Stored) : Except String LS :=
  if ls.failSet then .error "storage setItem failure: quota exceeded"
  else if (ls.store.find? (fun p => p.1 == key)).isSome then
    .ok { ls with store := ls.store.map (fun p => if p.1 == key then (key, v) else p) }
  else
    .ok { ls with store := ls.store ++ [(key, v)] }

/-- `localStorage.removeItem(key)`: drop every binding for `key`; throws when
the backend fails. -/
def LS.removeItem (ls : LS) (key : String) : Except String LS :=
  if ls.failRemove then .error "storage removeItem failure"
  else .ok { ls with store := ls.store.filter (fun p => !(p.1 == key)) }

/-- `Object.keys(localStorage)`: the keys currently present, in storage
order. -/
def LS.keys (ls : LS) : List String := ls.store.map Prod.fst

/-! ### Cache layer (`src/utils/cache.js`) -/

/-- `DEFAULT_CACHE_TTL`: 5 minutes, in milliseconds. -/
def DEFAULT_CACHE_TTL : Int := 5 * 60 * 1000

/-- `CACHE_KEYS.DASHBOARD`, via `getDashboardCacheKey()`. -/
def getDashboardCacheKey : String := "pyperf_dashboard"

/-- `getHostMetricsCacheKey(hostname, hours)`:
`` `${CACHE_KEYS.HOST_METRICS}_${hostname}_${hours}h` ``. -/
def getHostMetricsCacheKey (hostname : String) (hours : Int) : String :=
  "pyperf_host_metrics" ++ "_" ++ hostname ++ "_" ++ toString hours ++ "h"

/-- `setCache(key, data, ttl)`: store `{data, timestamp: Date.now(), ttl}`
serialized under `key`; a storage exception is caught (`console.warn`) and
the operation completes as a no-op. -/
def setCache (ls : LS) (key : String) (data : Val) (ttl : Int) (now : Int) : LS :=
  match ls.setItem key (.item data now ttl) with
  | .ok ls' => ls'
  | .error _ => ls

/-- The `try` block of `getCache(key)`: read the stored string (missing
entry returns `null` immediately), parse it, and if
`now - cacheItem.timestamp > cacheItem.ttl` remove the entry and return
`null`, else return `cacheItem.data`.  Any step may throw. -/
def getCacheE (ls : LS) (key : String) (now : Int) : Except String (Val × LS) := do
  let cached ← ls.getItem key
  match cached with
  | none => return (.vnull, ls)
  | some s => do
    let (data, ts, ttl) ← parseStored s
    if now - ts > ttl then do
      let ls' ← ls.removeItem key
      return (.vnull, ls')
    else
      return (data, ls)

/-- `getCache(key)`: the `try` body with its `catch` — any storage or parse
exception is absorbed (`console.warn`) and the call returns `null`, leaving
storage as it was. -/
def getCache (ls : LS) (key : String) (now : Int) : Val × LS :=
  match getCacheE ls key now with
  | .ok r => r
  | .error _ => (.vnull, ls)

/-- `hasValidCache(key)`: `getCache(key) !== null` (including `getCache`'s
side effect of removing an expired entry). -/
def hasValidCache (ls : LS) (key : String) (now : Int) : Bool × LS :=
  ((getCache ls key now).1 != Val.vnull, (getCache ls key now).2)

/-- `clearCache(key)`: `localStorage.removeItem(key)`, exceptions absorbed
(no-op on failure). -/
def clearCache (ls : LS) (key : String) : LS :=
  match ls.removeItem key with
  | .ok ls' => ls'
  | .error _ => ls

/-- One row of `getCacheStats().entries`: key, age and ttl in rounded
seconds, serialized size, and the advisory expired flag. -/
structure StatEntry where
  key : String
  age : Int
  ttl : Int
  size : Nat
  expired : Bool
deriving DecidableEq, Repr

/-- Result of `getCacheStats()`. -/
structure CacheStats where
  totalEntries : Nat
  pyperfEntries : Nat
  totalSize : Nat
  entries : List StatEntry
deriving DecidableEq, Repr

/-- JS `Math.round(n / 1000)` for an integer `n` of milliseconds:
`⌊n/1000 + 1/2⌋` (ties round toward positive infinity). -/
def jsRoundDiv1000 (n : Int) : Int := Int.fdiv (n + 500) 1000

/-- The `keys.forEach` loop of `getCacheStats()`: for each `pyperf_`-prefixed
key, count it, add the stored string's length to `totalSize`, and push a
stat entry with `expired = age > ttl`; a broken entry (inner `catch`) is
skipped, and a storage read exception aborts the scan via the outer `catch`,
returning the statistics accumulated so far. -/
def getCacheStatsGo (ls : LS) (now : Int) : List String → CacheStats → CacheStats
  | [], acc => acc
  | key :: rest, acc =>
    if jsStartsWith key "pyperf_" then
      let acc1 := { acc with pyperfEntries := acc.pyperfEntries + 1 }
      match ls.getItem key with
      | .error _ => acc1
      | .ok none => acc1
      | .ok (some s) =>
        let sz := (encodeStored s).length
        let acc2 := { acc1 with totalSize := acc1.totalSize + sz }
        match parseStored s with
        | .error _ => getCacheStatsGo ls now rest acc2
        | .ok (_, ts, ttl) =>
          let age := now - ts
          getCacheStatsGo ls now rest
            { acc2 with entries := acc2.entries ++
                [⟨key, jsRoundDiv1000 age, jsRoundDiv1000 ttl, sz, age > ttl⟩] }
    else getCacheStatsGo ls now rest acc

/-- `getCacheStats()`: totals over all keys plus a per-`pyperf_`-entry
breakdown with each entry's advisory `expired` flag. -/
def getCacheStats (ls : LS) (now : Int) : CacheStats :=
  getCacheStatsGo ls now ls.keys ⟨ls.keys.length, 0, 0, []⟩

/-- The `keys.forEach` loop of `cleanupExpiredCache()`: for each
`pyperf_`-prefixed key, call `hasValidCache` (whose inner `getCache` removes
the entry when it is expired) and increment `cleaned` when it reports a
miss. -/
def cleanupGo (now : Int) : List String → Nat × LS → Nat × LS
  | [], acc => acc
  | key :: rest, acc =>
    if jsStartsWith key "pyperf_" then
      cleanupGo now rest
        (if (hasValidCache acc.2 key now).1 then acc.1 else acc.1 + 1,
         (hasValidCache acc.2 key now).2)
    else cleanupGo now rest acc

/-- `cleanupExpiredCache()`: snapshot `Object.keys(localStorage)`, run the
cleanup loop over it, and return the count of misses observed (the body's
own `try`/`catch` is unreachable since `hasValidCache` absorbs all
exceptions). -/
def cleanupExpiredCache (ls : LS) (now : Int) : Nat × LS :=
  cleanupGo now ls.keys (0, ls)

/-! ### Pinia store actions (`src/stores/system.js`)

Only the state fields read or written by the two cache-consuming fetch
actions are modelled; the remaining store state (error strings, WebSocket
bookkeeping, refresh timer) is untouched by these actions up to the point
where they dispatch the API request.  The API request itself
(`fetchDashboardDataFromAPI` / `fetchHostMetricsFromAPI`) is an asynchronous
effect whose dispatch is recorded in the result; its response arrives after
the action has returned. -/

/-- The store-state fields touched by `fetchDashboardData` and
`fetchHostMetrics` before dispatching the API request. -/
structure StoreState where
  dashboardData : Val
  currentHost : Option String
  currentHostMetrics : Val
  isLoadingDashboard : Bool
  isLoadingHostDetail : Bool
  usingCachedData : Bool
  lastUpdate : Option Int
deriving DecidableEq, Repr

/-- Result of a fetch action at the moment it returns: the updated store
state and storage, whether the internal `...FromAPI` loader was dispatched,
and whether it was dispatched in the background (no `await`) after the
cached value was already returned. -/
structure FetchResult where
  state : StoreState
  ls : LS
  apiInvoked : Bool
  apiInBackground : Bool
deriving DecidableEq, Repr

/-- `fetchDashboardData(forceRefresh = false)`: unless forcing a refresh,
try `getCache(getDashboardCacheKey())`; a truthy cached value is installed
synchronously (`usingCachedData = true`, `lastUpdate = Date.now()`) and
`fetchDashboardDataFromAPI` is then dispatched *in the background*;
otherwise the loading flag is raised and the API fetch is awaited. -/
def fetchDashboardData (st : StoreState) (ls : LS) (now : Int) (forceRefresh : Bool) :
    FetchResult :=
  let cacheKey := getDashboardCacheKey
  if !forceRefresh then
    if truthy (getCache ls cacheKey now).1 then
      ⟨{ st with dashboardData := (getCache ls cacheKey now).1, usingCachedData := true,
                 lastUpdate := some now },
       (getCache ls cacheKey now).2, true, true⟩
    else
      ⟨{ st with isLoadingDashboard := true, usingCachedData := false },
       (getCache ls cacheKey now).2, true, false⟩
  else
    ⟨{ st with isLoadingDashboard := true, usingCachedData := false }, ls, true, false⟩

/-- `fetchHostMetrics(hostname, hours, forceRefresh = false)`: records the
current host, then follows the same cache-first flow as
`fetchDashboardData`, dispatching `fetchHostMetricsFromAPI` in the
background on a truthy cache hit and awaiting it otherwise. -/
def fetchHostMetrics (st : StoreState) (ls : LS) (hostname : String) (hours : Int)
    (now : Int) (forceRefresh : Bool) : FetchResult :=
  let cacheKey := getHostMetricsCacheKey hostname hours
  let st0 := { st with currentHost := some hostname }
  if !forceRefresh then
    if truthy (getCache ls cacheKey now).1 then
      ⟨{ st0 with currentHostMetrics := (getCache ls cacheKey now).1, usingCachedData := true },
       (getCache ls cacheKey now).2, true, true⟩
    else
      ⟨{ st0 with isLoadingHostDetail := true, usingCachedData := false },
       (getCache ls cacheKey now).2, true, false⟩
  else
    ⟨{ st0 with isLoadingHostDetail := true, usingCachedData := false }, ls, true, false⟩

/-! ### WebSocket service (`src/services/websocket.js`)

The `WebSocketService` instance state is `WS`; the browser-side effects of
each operation (opening/closing the underlying transport, arming timers,
emitting service events, sending frames) are returned as an explicit effect
list.  `reconnectTimerSet` models "a reconnect `setTimeout` is pending";
clearing an already-fired timer id is a no-op in JS and produces no effect
here.  Handler dispatch (`on`/`emit`) is modelled separately below over an
abstract callback type. -/

/-- `this.maxReconnectAttempts`. -/
def maxReconnectAttempts : Nat := 5

/-- `this.maxReconnectDelay` (milliseconds). -/
def maxReconnectDelay : Nat := 30000

/-- Mutable instance state of `WebSocketService` relevant to connection
lifecycle: socket presence, connection flags, reconnect timer/attempt/delay
bookkeeping, and the heartbeat interval handle. -/
structure WS where
  socketLive : Bool
  isConnected : Bool
  isConnecting : Bool
  reconnectTimerSet : Bool
  scheduledDelay : Nat
  reconnectAttempts : Nat
  reconnectDelay : Nat
  heartbeatSet : Bool
deriving DecidableEq, Repr

/-- The constructor: no socket, no timers, zero attempts, 1 s initial
reconnect delay. -/
def WS.init : WS :=
  { socketLive := false, isConnected := false, isConnecting := false,
    reconnectTimerSet := false, scheduledDelay := 0,
    reconnectAttempts := 0, reconnectDelay := 1000, heartbeatSet := false }

/-- Externally visible effects of a `WebSocketService` operation. -/
inductive Effect where
  | openTransport
  | closeTransport (code : Nat)
  | emitEvent (name : String)
  | sendMsg (msgType : String)
  | scheduleTimer (delay : Nat)
deriving DecidableEq, Repr

/-- `connect(url)`: a no-op returning an immediately resolved promise while
already connecting or connected; otherwise raise `isConnecting` and open a
new transport. -/
def connect (ws : WS) : WS × List Effect :=
  if ws.isConnecting || ws.isConnected then (ws, [])
  else ({ ws with isConnecting := true, socketLive := true }, [.openTransport])

/-- `scheduleReconnect(url, protocols)`: clear any pending timer, then arm a
`setTimeout` for `this.reconnectDelay` milliseconds. -/
def scheduleReconnect (ws : WS) : WS × List Effect :=
  ({ ws with reconnectTimerSet := true, scheduledDelay := ws.reconnectDelay },
   [.scheduleTimer ws.reconnectDelay])

/-- `socket.onopen`: mark connected, reset `reconnectAttempts` to 0 and
`reconnectDelay` to 1000, clear any pending reconnect timer, send the
`subscribe_all` handshake and emit `connected`. -/
def socketOnOpen (ws : WS) : WS × List Effect :=
  ({ ws with isConnected := true, isConnecting := false,
             reconnectAttempts := 0, reconnectDelay := 1000,
             reconnectTimerSet := false },
   [.sendMsg "subscribe_all", .emitEvent "connected"])

/-- `socket.onclose`: clear the connection flags, drop the socket, emit
`disconnected`, and — when the close code is not 1000 and
`reconnectAttempts < maxReconnectAttempts` — schedule a reconnect. -/
def socketOnClose (ws : WS) (code : Nat) : WS × List Effect :=
  let ws1 := { ws with isConnected := false, isConnecting := false, socketLive := false }
  if code != 1000 && decide (ws1.reconnectAttempts < maxReconnectAttempts) then
    let (ws2, effs) := scheduleReconnect ws1
    (ws2, Effect.emitEvent "disconnected" :: effs)
  else (ws1, [Effect.emitEvent "disconnected"])

/-- `socket.onerror`: drop `isConnecting`, emit `error` (the connect promise
rejects). -/
def socketOnError (ws : WS) : WS × List Effect :=
  ({ ws with isConnecting := false }, [.emitEvent "error"])

/-- The `setTimeout` callback armed by `scheduleReconnect`: when the pending
timer fires, increment `reconnectAttempts`, double `reconnectDelay` up to
`maxReconnectDelay`, and call `connect` again. -/
def reconnectTimerFire (ws : WS) : WS × List Effect :=
  if ws.reconnectTimerSet then
    let ws1 := { ws with
      reconnectTimerSet := false,
      reconnectAttempts := ws.reconnectAttempts + 1,
      reconnectDelay := min (ws.reconnectDelay * 2) maxReconnectDelay }
    connect ws1
  else (ws, [])

/-- `disconnect()`: clear any pending reconnect timer, close the socket (if
any) with the normal-closure code 1000, drop the connection flags and reset
`reconnectAttempts`.  The heartbeat interval is not touched. -/
def disconnect (ws : WS) : WS × List Effect :=
  let effs := if ws.socketLive then [Effect.closeTransport 1000] else []
  ({ ws with reconnectTimerSet := false, socketLive := false,
             isConnected := false, isConnecting := false, reconnectAttempts := 0 },
   effs)

/-- `stopHeartbeat()`: clear the heartbeat interval if armed. -/
def stopHeartbeat (ws : WS) : WS :=
  { ws with heartbeatSet := false }

/-- `startHeartbeat(interval)`: stop any existing heartbeat, then arm a new
interval. -/
def startHeartbeat (ws : WS) : WS :=
  { stopHeartbeat ws with heartbeatSet := true }

/-- External stimuli driving one `WebSocketService` instance: transport
events on the live socket, the pending reconnect timer firing, and the
caller-facing `disconnect`/`connect` methods. -/
inductive WSEvent where
  | closeEvt (code : Nat)
  | openEvt
  | errorEvt
  | timerFireEvt
  | disconnectCall
  | connectCall
deriving DecidableEq, Repr

/-- One step of the channel: transport handlers only exist while a socket
does; the reconnect callback only runs while its timer is pending. -/
def step (ws : WS) : WSEvent → WS × List Effect
  | .closeEvt code => if ws.socketLive then socketOnClose ws code else (ws, [])
  | .openEvt => if ws.socketLive then socketOnOpen ws else (ws, [])
  | .errorEvt => if ws.socketLive then socketOnError ws else (ws, [])
  | .timerFireEvt => reconnectTimerFire ws
  | .disconnectCall => disconnect ws
  | .connectCall => connect ws

/-- Number of reconnects scheduled in an effect list. -/
def schedCount (effs : List Effect) : Nat :=
  (effs.filter (fun e => match e with | .scheduleTimer _ => true | _ => false)).length

/-- Run a sequence of events, returning the final state and the total number
of reconnects scheduled along the way. -/
def run (ws : WS) : List WSEvent → WS × Nat
  | [] => (ws, 0)
  | e :: rest =>
    ((run (step ws e).1 rest).1,
     schedCount (step ws e).2 + (run (step ws e).1 rest).2)

/-! ### Listener registry and message dispatch (`on` / `emit` / `onmessage`)

Callbacks are drawn from an arbitrary type; invoking one is modelled by a
`call` function returning `.error` when the callback throws. -/

/-- `on(event, callback)`: create the event's list if absent, then push the
callback at its end. -/
def onListener {C : Type} (m : List (String × List C)) (event : String) (cb : C) :
    List (String × List C) :=
  if (m.find? (fun p => p.1 == event)).isSome then
    m.map (fun p => if p.1 == event then (p.1, p.2 ++ [cb]) else p)
  else m ++ [(event, [cb])]

/-- One iteration of `emit`'s `forEach`: invoke the callback inside
`try`/`catch`, recording the callback and whether an error was caught and
logged; an error never escapes the iteration. -/
def dispatchOne {C : Type} (call : C → Val → Except String Unit) (d : Val) (cb : C) :
    C × Bool :=
  match call cb d with
  | .ok _ => (cb, false)
  | .error _ => (cb, true)

/-- `emit(event, data)`: when the event has a listener list, invoke each
registered callback once, in list order, each inside its own
`try`/`catch`; the returned log records the invocations in order.  The
function is total: no callback error propagates. -/
def emit {C : Type} (call : C → Val → Except String Unit)
    (m : List (String × List C)) (event : String) (d : Val) : List (C × Bool) :=
  match m.find? (fun p => p.1 == event) with
  | some p => p.2.map (dispatchOne call d)
  | none => []

/-- `socket.onmessage`: `JSON.parse(event.data)` inside `try`/`catch`.  On
success, emit `"message"` with the parsed value and, when `data.type` is
truthy, an event named by that type; a parse failure is caught
(`console.error`) — nothing is emitted and no instance state is touched.
The result lists the `(event name, payload)` pairs emitted. -/
def socketOnMessage (ws : WS) (parsed : Except String Val) : WS × List (Val × Val) :=
  match parsed with
  | .error _ => (ws, [])
  | .ok data =>
    let typed := match data.getField "type" with
      | some t => if truthy t then [(t, data)] else []
      | none => []
    (ws, (Val.vstr "message", data) :: typed)

end PyPerfViewer

namespace PyPerfViewer

example : truthy (.vint 3) = true := by decide
example :
    getCache (setCache ⟨[], false, false, false⟩ "pyperf_a" (.vint 7) 1000 0) "pyperf_a" 500 =
      (.vint 7, setCache ⟨[], false, false, false⟩ "pyperf_a" (.vint 7) 1000 0) := by decide
example :
    (getCache (setCache ⟨[], false, false, false⟩ "pyperf_a" (.vint 7) 1000 0) "pyperf_a" 1001).1 =
      .vnull := by decide
example :
    (cleanupExpiredCache (setCache ⟨[], false, false, false⟩ "pyperf_a" (.vint 7) 1000 0) 1100) =
      (1, ⟨[], false, false, false⟩) := by decide
example :
    ((getCacheStats (setCache ⟨[], false, false, false⟩ "pyperf_a" (.vint 7) 1000 0) 1100).entries.map
      (fun e => (e.key, e.expired))) = [("pyperf_a", true)] := by decide
example : (LS.getItem ⟨[("pyperf_a", .item (.vint 1) 0 1000)], false, false, false⟩ "pyperf_a") =
    .ok (some (.item (.vint 1) 0 1000)) := rfl
example : jsStartsWith "pyperf_a" "pyperf_" = true := by decide
example : encodeStored (.item (.vobjCons "x" (.vint 1) .vobjNil) 0 1000) =
    "\x7b\"data\":\x7b\"x\":1\x7d,\"timestamp\":0,\"ttl\":1000\x7d" := by decide

/-! ### Channel invariants -/

/-- Inductive invariant tying the number of reconnects scheduled so far
(`cnt`) to the reconnect bookkeeping: a pending timer only exists below the
attempt cap and while no socket is live, and the schedule count never gets
ahead of the attempt counter (or the channel is quiescent with the count
already within the budget). -/
def ReconnectInv (ws : WS) (cnt : Nat) : Prop :=
  ws.reconnectAttempts ≤ 5 ∧
  (ws.reconnectTimerSet = true → ws.reconnectAttempts ≤ 4 ∧ ws.socketLive = false) ∧
  (cnt ≤ ws.reconnectAttempts + (if ws.reconnectTimerSet then 1 else 0) ∨
    (ws.socketLive = false ∧ ws.reconnectTimerSet = false ∧ cnt ≤ 5))

lemma reconnectInv_le {ws : WS} {cnt : Nat} (h : ReconnectInv ws cnt) : cnt ≤ 5 := by
  obtain ⟨h1, h2, h3 | h3⟩ := h
  · cases ht : ws.reconnectTimerSet with
    | false => simp [ht] at h3; omega
    | true => obtain ⟨h4, -⟩ := h2 ht; simp [ht] at h3; omega
  · exact h3.2.2

/-- Automatic events (transport close/error and the reconnect timer firing)
preserve the reconnect invariant, counting the reconnects they schedule. -/
lemma reconnectInv_step {ws : WS} {cnt : Nat} (e : WSEvent) (h : ReconnectInv ws cnt)
    (he : (∃ c, e = WSEvent.closeEvt c) ∨ e = WSEvent.timerFireEvt ∨ e = WSEvent.errorEvt) :
    ReconnectInv (step ws e).1 (cnt + schedCount (step ws e).2) := by
  obtain ⟨h1, h2, h3⟩ := h
  rcases he with ⟨c, rfl⟩ | rfl | rfl
  · by_cases hl : ws.socketLive
    · have htimer : ws.reconnectTimerSet = false := by
        cases ht : ws.reconnectTimerSet with
        | false => rfl
        | true => exact absurd hl (by simpa using (h2 ht).2)
      have hcnt : cnt ≤ ws.reconnectAttempts := by
        rcases h3 with h3 | h3
        · simpa [htimer] using h3
        · exact absurd hl (by simp [h3.1])
      by_cases hcode : (c != 1000 && decide (ws.reconnectAttempts < maxReconnectAttempts)) = true
      · have hlt : ws.reconnectAttempts < 5 := by
          have := (Bool.and_eq_true _ _ |>.mp hcode).2
          simpa [maxReconnectAttempts] using this
        simp only [step, hl, if_true, socketOnClose, scheduleReconnect]
        simp only [hcode, if_true]
        refine ⟨by simpa using h1, fun _ => ⟨by simp; omega, rfl⟩, Or.inl ?_⟩
        simp [schedCount, List.filter]
        omega
      · simp only [step, hl, if_true, socketOnClose]
        rw [if_neg (by simpa using hcode)]
        exact ⟨by simpa using h1, fun hx => by simp [htimer] at hx,
          Or.inl (by simp [htimer, schedCount, List.filter]; omega)⟩
    · simp only [step, if_neg hl]
      refine ⟨h1, h2, ?_⟩
      simpa [schedCount, List.filter] using h3
  · by_cases ht : ws.reconnectTimerSet
    · obtain ⟨h4, h5⟩ := h2 ht
      have hcnt : cnt ≤ ws.reconnectAttempts + 1 := by
        rcases h3 with h3 | h3
        · simpa [ht] using h3
        · simp [h3.2.1] at ht
      simp only [step, reconnectTimerFire, ht, if_true, connect]
      by_cases hcc : (ws.isConnecting || ws.isConnected) = true
      · simp only [hcc, if_true]
        exact ⟨by simp; omega, by simp, Or.inl (by simp [schedCount, List.filter]; omega)⟩
      · simp only [Bool.not_eq_true] at hcc
        simp only [hcc, if_false]
        exact ⟨by simp; omega, by simp, Or.inl (by simp [schedCount, List.filter]; omega)⟩
    · simp only [Bool.not_eq_true] at ht
      simp only [step, reconnectTimerFire, ht, if_false]
      refine ⟨h1, h2, ?_⟩
      simpa [schedCount, List.filter] using h3
  · by_cases hl : ws.socketLive
    · have hstep : step ws WSEvent.errorEvt =
          ({ ws with isConnecting := false }, [Effect.emitEvent "error"]) := by
        simp [step, hl, socketOnError]
      rw [hstep]
      refine ⟨h1, fun hx => h2 hx, ?_⟩
      rcases h3 with h3 | h3
      · exact Or.inl (by simpa [schedCount, List.filter] using h3)
      · exact Or.inr ⟨h3.1, h3.2.1, by simpa [schedCount, List.filter] using h3.2.2⟩
    · simp only [step, if_neg hl]
      refine ⟨h1, h2, ?_⟩
      simpa [schedCount, List.filter] using h3

/-- Running any sequence of automatic events preserves the invariant. -/
lemma reconnectInv_run (evs : List WSEvent) : ∀ (ws : WS) (cnt : Nat),
    ReconnectInv ws cnt →
    (∀ e ∈ evs, (∃ c, e = WSEvent.closeEvt c) ∨ e = WSEvent.timerFireEvt ∨ e = WSEvent.errorEvt) →
    ReconnectInv (run ws evs).1 (cnt + (run ws evs).2) := by
  induction evs with
  | nil => intro ws cnt h _; simpa [run] using h
  | cons e rest ih =>
    intro ws cnt h hall
    have h1 := reconnectInv_step e h (hall e (by simp))
    have h2 := ih (step ws e).1 (cnt + schedCount (step ws e).2) h1
      (fun x hx => hall x (by simp [hx]))
    simpa [run, Nat.add_assoc] using h2

/-- Rewriting `find?` through the key-preserving update performed by
`onListener` on an existing key. -/
lemma find?_map_keyfix {β : Type} (m : List (String × β)) (e : String) (f : String × β → β) :
    (m.map (fun p => if p.1 == e then (p.1, f p) else p)).find? (fun p => p.1 == e) =
      (m.find? (fun p => p.1 == e)).map (fun p => (p.1, f p)) := by
  induction m with
  | nil => rfl
  | cons p rest ih =>
    by_cases hp : (p.1 == e) = true
    · simp only [List.map_cons, if_pos hp]
      rw [List.find?_cons_of_pos _ (by simpa using hp),
        List.find?_cons_of_pos _ (by simpa using hp)]
      rfl
    · simp only [List.map_cons, if_neg hp]
      rw [List.find?_cons_of_neg _ (by simpa using hp),
        List.find?_cons_of_neg _ (by simpa using hp)]
      exact ih

/-- Appending a handler via `on` appends exactly one invocation of that
handler to the dispatch log of a subsequent `emit` for the same event. -/
lemma emit_onListener {C : Type} (call : C → Val → Except String Unit)
    (m : List (String × List C)) (e : String) (cb : C) (d : Val) :
    emit call (onListener m e cb) e d = emit call m e d ++ [dispatchOne call d cb] := by
  unfold onListener emit
  by_cases hs : (m.find? (fun p => p.1 == e)).isSome
  · rw [if_pos hs, find?_map_keyfix]
    obtain ⟨p, hp⟩ := Option.isSome_iff_exists.mp hs
    rw [hp]
    simp
  · rw [if_neg hs]
    have hnone : m.find? (fun p => p.1 == e) = none :=
      Option.not_isSome_iff_eq_none.mp hs
    rw [List.find?_append, hnone]
    simp

/-! ### Claim theorems: channel -/

/-- C3 (counterexample): on a channel with the heartbeat interval armed,
`disconnect()` leaves the heartbeat armed — the claim that disconnect
cancels the heartbeat timer is false. -/
theorem disconnect_heartbeat_cex :
    (startHeartbeat { WS.init with socketLive := true }).heartbeatSet = true ∧
    (disconnect (startHeartbeat { WS.init with socketLive := true })).1.heartbeatSet = true := by
  decide

/-- C3 (amended): after `disconnect()` in any state, the pending reconnect
timer is cancelled, the socket (if any) is closed with the normal-closure
code 1000, the connection flags and attempt counter are reset, and the
ensuing close event (code 1000) schedules no reconnect; the heartbeat
interval, however, is NOT cancelled — `disconnect` leaves `heartbeatSet`
exactly as it was. -/
theorem disconnect_suppresses_reconnect (ws : WS) :
    (disconnect ws).1.reconnectTimerSet = false ∧
    (disconnect ws).1.socketLive = false ∧
    (disconnect ws).1.isConnected = false ∧
    (disconnect ws).1.isConnecting = false ∧
    (disconnect ws).1.reconnectAttempts = 0 ∧
    (ws.socketLive = true → (disconnect ws).2 = [Effect.closeTransport 1000]) ∧
    (disconnect ws).1.heartbeatSet = ws.heartbeatSet ∧
    (∀ w : WS, schedCount (socketOnClose w 1000).2 = 0) := by
  refine ⟨rfl, rfl, rfl, rfl, rfl, fun h => by simp [disconnect, h], rfl, fun w => ?_⟩
  simp [socketOnClose, schedCount, List.filter]

theorem disconnect_suppresses_reconnect_witness :
    (disconnect { WS.init with socketLive := true }).2 = [Effect.closeTransport 1000] :=
  (disconnect_suppresses_reconnect { WS.init with socketLive := true }).2.2.2.2.2.1 rfl

/-- C4: the reconnect backoff policy.  The delay starts at 1000 ms (the
constructor); an unclean close (code ≠ 1000) while `reconnectAttempts <
maxReconnectAttempts` schedules a reconnect after the *current* delay; when
the timer fires, the attempt counter increments and the delay doubles,
capped at 30000 ms; a successful open resets the counter and delay to 0 and
1000 ms. -/
theorem backoff_policy :
    WS.init.reconnectDelay = 1000 ∧ WS.init.reconnectAttempts = 0 ∧
    (∀ (ws : WS) (code : Nat), ws.socketLive = true → code ≠ 1000 →
      ws.reconnectAttempts < maxReconnectAttempts →
      (step ws (WSEvent.closeEvt code)).1.reconnectTimerSet = true ∧
      (step ws (WSEvent.closeEvt code)).1.scheduledDelay = ws.reconnectDelay ∧
      Effect.scheduleTimer ws.reconnectDelay ∈ (step ws (WSEvent.closeEvt code)).2) ∧
    (∀ ws : WS, ws.reconnectTimerSet = true →
      (step ws WSEvent.timerFireEvt).1.reconnectDelay = min (ws.reconnectDelay * 2) 30000 ∧
      (step ws WSEvent.timerFireEvt).1.reconnectAttempts = ws.reconnectAttempts + 1) ∧
    (∀ ws : WS, ws.socketLive = true →
      (step ws WSEvent.openEvt).1.reconnectAttempts = 0 ∧
      (step ws WSEvent.openEvt).1.reconnectDelay = 1000) := by
  refine ⟨rfl, rfl, fun ws code hl hc ha => ?_, fun ws ht => ?_, fun ws hl => ?_⟩
  · have hcond : (code != 1000 && decide (ws.reconnectAttempts < maxReconnectAttempts)) = true := by
      simp [hc, ha]
    simp [step, hl, socketOnClose, scheduleReconnect, hcond]
  · have : (step ws WSEvent.timerFireEvt).1 =
        (connect { ws with
          reconnectTimerSet := false,
          reconnectAttempts := ws.reconnectAttempts + 1,
          reconnectDelay := min (ws.reconnectDelay * 2) maxReconnectDelay }).1 := by
      simp [step, reconnectTimerFire, ht]
    rw [this]
    unfold connect
    by_cases hcc : (ws.isConnecting || ws.isConnected) = true <;>
      simp [hcc, maxReconnectDelay]
  · simp [step, hl, socketOnOpen]

theorem backoff_policy_witness :
    ({ WS.init with socketLive := true } : WS).reconnectAttempts < maxReconnectAttempts ∧
    (step { WS.init with socketLive := true } (WSEvent.closeEvt 1006)).1.scheduledDelay = 1000 ∧
    (step { WS.init with reconnectTimerSet := true, reconnectDelay := 16000 }
      WSEvent.timerFireEvt).1.reconnectDelay = 30000 ∧
    (step { WS.init with socketLive := true, reconnectAttempts := 3 }
      WSEvent.openEvt).1.reconnectAttempts = 0 := by
  refine ⟨by decide, ?_, ?_, ?_⟩
  · exact ((backoff_policy.2.2.1 { WS.init with socketLive := true } 1006 rfl
      (by decide) (by decide)).2.1)
  · have h := (backoff_policy.2.2.2.1
      { WS.init with reconnectTimerSet := true, reconnectDelay := 16000 } rfl).1
    simpa using h
  · exact (backoff_policy.2.2.2.2 { WS.init with socketLive := true, reconnectAttempts := 3 }
      rfl).1

/-- C5: in any execution consisting only of automatic events (transport
closes of any code, transport errors, reconnect-timer fires — no successful
open and no manual `connect`/`disconnect` call) starting from a fresh
`connect`, at most 5 reconnects are ever scheduled: there is no 6th.
Moreover a channel with no socket and no pending timer is stuck for every
event except a manual `connect` call: no transport is opened and no
reconnect is scheduled, so only manual `connect` can re-establish the
connection. -/
theorem no_sixth_reconnect (evs : List WSEvent)
    (hall : ∀ e ∈ evs, e ≠ WSEvent.openEvt ∧ e ≠ WSEvent.connectCall ∧
      e ≠ WSEvent.disconnectCall) :
    (run (connect WS.init).1 evs).2 ≤ 5 ∧
    (∀ ws : WS, ws.socketLive = false → ws.reconnectTimerSet = false →
      ∀ e : WSEvent, e ≠ WSEvent.connectCall →
        schedCount (step ws e).2 = 0 ∧ Effect.openTransport ∉ (step ws e).2) := by
  constructor
  · have hall' : ∀ e ∈ evs, (∃ c, e = WSEvent.closeEvt c) ∨ e = WSEvent.timerFireEvt ∨
        e = WSEvent.errorEvt := by
      intro e he
      obtain ⟨h1, h2, h3⟩ := hall e he
      cases e with
      | closeEvt c => exact Or.inl ⟨c, rfl⟩
      | timerFireEvt => exact Or.inr (Or.inl rfl)
      | errorEvt => exact Or.inr (Or.inr rfl)
      | openEvt => exact absurd rfl h1
      | connectCall => exact absurd rfl h2
      | disconnectCall => exact absurd rfl h3
    have hinit : ReconnectInv (connect WS.init).1 0 := by
      refine ⟨?_, ?_, Or.inl ?_⟩ <;> simp [connect, WS.init]
    have h := reconnectInv_run evs (connect WS.init).1 0 hinit hall'
    simpa using reconnectInv_le h
  · intro ws hl ht e he
    cases e with
    | closeEvt c => simp [step, hl, schedCount]
    | openEvt => simp [step, hl, schedCount]
    | errorEvt => simp [step, hl, schedCount]
    | timerFireEvt => simp [step, reconnectTimerFire, ht, schedCount]
    | disconnectCall =>
      constructor
      · simp [step, disconnect, hl, schedCount, List.filter]
      · simp [step, disconnect, hl]
    | connectCall => exact absurd rfl he

theorem no_sixth_reconnect_witness :
    (run (connect WS.init).1
      [WSEvent.closeEvt 1006, WSEvent.timerFireEvt, WSEvent.closeEvt 1006,
       WSEvent.timerFireEvt, WSEvent.closeEvt 1006, WSEvent.timerFireEvt,
       WSEvent.closeEvt 1006, WSEvent.timerFireEvt, WSEvent.closeEvt 1006,
       WSEvent.timerFireEvt, WSEvent.closeEvt 1006]).2 ≤ 5 :=
  (no_sixth_reconnect _ (by decide)).1

/-- C6: `connect` is idempotent while the channel is connecting or
connected: the instance state is unchanged and no transport-opening effect
is produced (the call returns an immediately resolved promise), so each
instance opens at most one transport at a time. -/
theorem connect_idempotent_while_active (ws : WS)
    (h : ws.isConnecting = true ∨ ws.isConnected = true) :
    connect ws = (ws, []) := by
  rcases h with h | h <;> simp [connect, h]

theorem connect_idempotent_while_active_witness :
    connect { WS.init with isConnected := true } = ({ WS.init with isConnected := true }, []) :=
  connect_idempotent_while_active { WS.init with isConnected := true } (Or.inr rfl)

/-- C7: emitting an event after registering handlers `c1` then `c2` invokes
every previously registered handler and then `c1` and `c2`, each exactly
once, in registration order — the dispatch log is the full handler list in
order.  Each invocation runs inside its own `try`/`catch` (`dispatchOne`
records a caught-and-logged error as `true`), so `c2`'s invocation appears
in the log even when `c1` throws, and `emit` itself never throws (its type
is total). -/
theorem emit_invokes_all_handlers_in_order {C : Type}
    (call : C → Val → Except String Unit) (m : List (String × List C))
    (e : String) (c1 c2 : C) (d : Val) :
    emit call (onListener (onListener m e c1) e c2) e d =
      emit call m e d ++ [dispatchOne call d c1, dispatchOne call d c2] := by
  rw [emit_onListener, emit_onListener, List.append_assoc]
  rfl

/-- C10: a transport message whose payload fails `JSON.parse` emits no event
at all (neither `"message"` nor any typed event), does not throw (the
handler is total), and leaves the instance state — connection flags and
reconnect bookkeeping — unchanged; the listener registry is not consulted at
all since no dispatch happens.  Conversely, any emitted event comes from a
successfully parsed payload. -/
theorem onmessage_invalid_json_silent :
    (∀ (ws : WS) (err : String), socketOnMessage ws (Except.error err) = (ws, [])) ∧
    (∀ (ws : WS) (p : Except String Val),
      (socketOnMessage ws p).2 ≠ [] → ∃ d, p = Except.ok d) := by
  refine ⟨fun ws err => rfl, fun ws p hne => ?_⟩
  cases p with
  | error e => exact absurd rfl hne
  | ok d => exact ⟨d, rfl⟩

theorem onmessage_invalid_json_silent_witness :
    socketOnMessage WS.init (Except.error "bad json") = (WS.init, []) ∧
    (∃ d, (Except.ok (Val.vint 1) : Except String Val) = Except.ok d) :=
  ⟨onmessage_invalid_json_silent.1 WS.init "bad json",
   onmessage_invalid_json_silent.2 WS.init (Except.ok (Val.vint 1)) (by decide)⟩

/-! ### Claim theorems: cache -/

/-- C8: every storage-backend failure is absorbed inside the cache
operation.  When `setItem` throws, `setCache` is a no-op; when `getItem`
throws or the stored string fails to parse or the expiry-removal throws,
`getCache` returns `null` with storage untouched; when `removeItem` throws,
`clearCache` is a no-op.  No storage exception ever reaches the caller: the
operations are total functions (no `Except` in their result types). -/
theorem storage_failures_absorbed (ls : LS) (key : String) (data : Val) (ttl now : Int) :
    (ls.failSet = true → setCache ls key data ttl now = ls) ∧
    (ls.failGet = true → getCache ls key now = (Val.vnull, ls)) ∧
    (ls.failRemove = true → clearCache ls key = ls) ∧
    (∀ raw, ls.getItem key = Except.ok (some (Stored.corrupt raw)) →
      getCache ls key now = (Val.vnull, ls)) ∧
    (∀ (d : Val) (ts t : Int), ls.failRemove = true →
      ls.getItem key = Except.ok (some (Stored.item d ts t)) → now - ts > t →
      getCache ls key now = (Val.vnull, ls)) := by
  refine ⟨fun h => ?_, fun h => ?_, fun h => ?_, fun raw h => ?_, fun d ts t hr h hexp => ?_⟩
  · simp [setCache, LS.setItem, h]
  · simp [getCache, getCacheE, LS.getItem, h, Bind.bind, Except.bind]
  · simp [clearCache, LS.removeItem, h]
  · simp [getCache, getCacheE, h, parseStored, Bind.bind, Except.bind]
  · simp [getCache, getCacheE, h, parseStored, hexp, LS.removeItem, hr,
      Bind.bind, Except.bind, Functor.map, Except.map]

theorem storage_failures_absorbed_witness :
    (setCache ⟨[], true, true, true⟩ "k" Val.vnull 5 0 = ⟨[], true, true, true⟩) ∧
    (getCache ⟨[], true, true, true⟩ "k" 0 = (Val.vnull, ⟨[], true, true, true⟩)) ∧
    (clearCache ⟨[], true, true, true⟩ "k" = ⟨[], true, true, true⟩) ∧
    (getCache ⟨[("pyperf_x", Stored.corrupt "zz")], false, false, false⟩ "pyperf_x" 0 =
      (Val.vnull, ⟨[("pyperf_x", Stored.corrupt "zz")], false, false, false⟩)) ∧
    (getCache ⟨[("k", Stored.item (Val.vint 1) 0 5)], false, false, true⟩ "k" 100 =
      (Val.vnull, ⟨[("k", Stored.item (Val.vint 1) 0 5)], false, false, true⟩)) :=
  ⟨(storage_failures_absorbed ⟨[], true, true, true⟩ "k" Val.vnull 5 0).1 rfl,
   (storage_failures_absorbed ⟨[], true, true, true⟩ "k" Val.vnull 5 0).2.1 rfl,
   (storage_failures_absorbed ⟨[], true, true, true⟩ "k" Val.vnull 5 0).2.2.1 rfl,
   (storage_failures_absorbed ⟨[("pyperf_x", Stored.corrupt "zz")], false, false, false⟩
     "pyperf_x" Val.vnull 5 0).2.2.2.1 "zz" rfl,
   (storage_failures_absorbed ⟨[("k", Stored.item (Val.vint 1) 0 5)], false, false, true⟩
     "k" Val.vnull 5 100).2.2.2.2 (Val.vint 1) 0 5 rfl rfl (by decide)⟩

/-! ### Lemmas: `setCache`/`getCache` lookups and `getCacheStats` entries -/

lemma find?_setStore (st : List (String × Stored)) (key : String) (v : Stored)
    (hs : (st.find? (fun p => p.1 == key)).isSome) :
    (st.map (fun p => if p.1 == key then (key, v) else p)).find? (fun p => p.1 == key) =
      some (key, v) := by
  induction st with
  | nil => simp at hs
  | cons p rest ih =>
    by_cases hp : (p.1 == key) = true
    · simp only [List.map_cons, if_pos hp]
      exact List.find?_cons_of_pos _ (by simp)
    · simp only [List.map_cons, if_neg hp]
      rw [List.find?_cons_of_neg _ (by simpa using hp)]
      apply ih
      rwa [List.find?_cons_of_neg _ (by simpa using hp)] at hs

lemma setCache_fields (ls : LS) (key : String) (v : Val) (ttl now : Int)
    (hS : ls.failSet = false) :
    (setCache ls key v ttl now).failGet = ls.failGet ∧
    (setCache ls key v ttl now).failRemove = ls.failRemove ∧
    (setCache ls key v ttl now).store.find? (fun p => p.1 == key) =
      some (key, Stored.item v now ttl) := by
  unfold setCache LS.setItem
  rw [if_neg (by simp [hS])]
  by_cases hf : (ls.store.find? (fun p => p.1 == key)).isSome
  · rw [if_pos hf]
    exact ⟨rfl, rfl, find?_setStore _ _ _ hf⟩
  · rw [if_neg hf]
    refine ⟨rfl, rfl, ?_⟩
    rw [List.find?_append, Option.not_isSome_iff_eq_none.mp hf]
    simp

lemma getItem_setCache (ls : LS) (key : String) (v : Val) (ttl now : Int)
    (hS : ls.failSet = false) (hG : ls.failGet = false) :
    (setCache ls key v ttl now).getItem key = .ok (some (.item v now ttl)) := by
  obtain ⟨h1, h2, h3⟩ := setCache_fields ls key v ttl now hS
  unfold LS.getItem
  rw [if_neg (by simp [h1, hG]), h3]
  rfl

lemma find?_filter_ne (st : List (String × Stored)) (key : String) :
    (st.filter (fun p => !(p.1 == key))).find? (fun p => p.1 == key) = none := by
  rw [List.find?_eq_none]
  intro x hx
  have := (List.mem_filter.mp hx).2
  simpa using this

lemma getCache_setCache_fresh (ls : LS) (key : String) (v : Val) (ttl now0 now1 : Int)
    (hS : ls.failSet = false) (hG : ls.failGet = false) (h : ¬(now1 - now0 > ttl)) :
    getCache (setCache ls key v ttl now0) key now1 = (v, setCache ls key v ttl now0) := by
  have hgi := getItem_setCache ls key v ttl now0 hS hG
  simp [getCache, getCacheE, hgi, parseStored, h, Bind.bind, Except.bind,
    Pure.pure, Except.pure]

lemma getCache_setCache_expired (ls : LS) (key : String) (v : Val) (ttl now0 now1 : Int)
    (hS : ls.failSet = false) (hG : ls.failGet = false) (hR : ls.failRemove = false)
    (h : now1 - now0 > ttl) :
    getCache (setCache ls key v ttl now0) key now1 =
      (Val.vnull, { setCache ls key v ttl now0 with
        store := (setCache ls key v ttl now0).store.filter (fun p => !(p.1 == key)) }) := by
  have hgi := getItem_setCache ls key v ttl now0 hS hG
  have hR' : (setCache ls key v ttl now0).failRemove = false :=
    (setCache_fields ls key v ttl now0 hS).2.1.trans hR
  simp [getCache, getCacheE, hgi, parseStored, h, LS.removeItem, hR',
    Bind.bind, Except.bind, Functor.map, Except.map, Pure.pure, Except.pure]

lemma statsGo_entries_mono (ls : LS) (now : Int) :
    ∀ (l : List String) (acc : CacheStats) (x : StatEntry),
      x ∈ acc.entries → x ∈ (getCacheStatsGo ls now l acc).entries := by
  intro l
  induction l with
  | nil => intro acc x hx; simpa [getCacheStatsGo] using hx
  | cons k rest ih =>
    intro acc x hx
    unfold getCacheStatsGo
    by_cases hk : jsStartsWith k "pyperf_" = true
    · rw [if_pos hk]
      cases hgi : ls.getItem k with
      | error e => exact hx
      | ok o =>
        cases o with
        | none => exact hx
        | some s =>
          cases s with
          | corrupt raw =>
            exact ih ⟨acc.totalEntries, acc.pyperfEntries + 1,
              acc.totalSize + (encodeStored (Stored.corrupt raw)).length, acc.entries⟩ x hx
          | item d0 ts0 ttl0 =>
            exact ih ⟨acc.totalEntries, acc.pyperfEntries + 1,
              acc.totalSize + (encodeStored (Stored.item d0 ts0 ttl0)).length,
              acc.entries ++ [⟨k, jsRoundDiv1000 (now - ts0), jsRoundDiv1000 ttl0,
                (encodeStored (Stored.item d0 ts0 ttl0)).length, decide (now - ts0 > ttl0)⟩]⟩ x
              (by simp only [List.mem_append]; exact Or.inl hx)
    · rw [if_neg hk]
      exact ih _ x hx

lemma keys_present (ls : LS) (hG : ls.failGet = false) :
    ∀ k ∈ ls.keys, ∃ s, ls.getItem k = Except.ok (some s) := by
  intro k hk
  obtain ⟨p, hp, rfl⟩ := List.mem_map.mp hk
  have hsome : (ls.store.find? (fun q => q.1 == p.1)).isSome := by
    rw [List.find?_isSome]
    exact ⟨p, hp, by simp⟩
  obtain ⟨q, hq⟩ := Option.isSome_iff_exists.mp hsome
  exact ⟨q.2, by simp [LS.getItem, hG, hq]⟩

lemma statsGo_mem (ls : LS) (now : Int) :
    ∀ (l : List String) (acc : CacheStats) (key : String) (d : Val) (ts ttl : Int),
      (∀ k ∈ l, ∃ s, ls.getItem k = Except.ok (some s)) →
      key ∈ l → jsStartsWith key "pyperf_" = true →
      ls.getItem key = Except.ok (some (Stored.item d ts ttl)) →
      ∃ x ∈ (getCacheStatsGo ls now l acc).entries,
        x.key = key ∧ x.expired = decide (now - ts > ttl) := by
  intro l
  induction l with
  | nil => intro acc key d ts ttl _ hmem; simp at hmem
  | cons k0 rest ih =>
    intro acc key d ts ttl hpres hmem hpre hgi
    unfold getCacheStatsGo
    by_cases hk0 : jsStartsWith k0 "pyperf_" = true
    · rw [if_pos hk0]
      by_cases hkey : key = k0
      · subst hkey
        rw [hgi]
        exact ⟨⟨key, jsRoundDiv1000 (now - ts), jsRoundDiv1000 ttl,
          (encodeStored (Stored.item d ts ttl)).length, decide (now - ts > ttl)⟩,
          statsGo_entries_mono ls now rest ⟨acc.totalEntries, acc.pyperfEntries + 1,
            acc.totalSize + (encodeStored (Stored.item d ts ttl)).length,
            acc.entries ++ [⟨key, jsRoundDiv1000 (now - ts), jsRoundDiv1000 ttl,
              (encodeStored (Stored.item d ts ttl)).length, decide (now - ts > ttl)⟩]⟩ _
            (by simp), rfl, rfl⟩
      · have h : key ∈ rest := by
          rcases List.mem_cons.mp hmem with h | h
          · exact absurd h hkey
          · exact h
        obtain ⟨s0, hs0⟩ := hpres k0 (by simp)
        rw [hs0]
        cases s0 with
        | corrupt raw =>
          exact ih ⟨acc.totalEntries, acc.pyperfEntries + 1,
            acc.totalSize + (encodeStored (Stored.corrupt raw)).length, acc.entries⟩
            key d ts ttl (fun k hk => hpres k (by simp [hk])) h hpre hgi
        | item d0 ts0 ttl0 =>
          exact ih ⟨acc.totalEntries, acc.pyperfEntries + 1,
            acc.totalSize + (encodeStored (Stored.item d0 ts0 ttl0)).length,
            acc.entries ++ [⟨k0, jsRoundDiv1000 (now - ts0), jsRoundDiv1000 ttl0,
              (encodeStored (Stored.item d0 ts0 ttl0)).length, decide (now - ts0 > ttl0)⟩]⟩
            key d ts ttl (fun k hk => hpres k (by simp [hk])) h hpre hgi
    · rw [if_neg hk0]
      have h : key ∈ rest := by
        rcases List.mem_cons.mp hmem with h | h
        · subst h; exact absurd hpre hk0
        · exact h
      exact ih acc key d ts ttl (fun k hk => hpres k (by simp [hk])) h hpre hgi

/-- C1 (counterexample): after `write("pyperf_d", 7, 1000)` and 1001 ms,
`stats()` does report the entry expired, but `read` does NOT still return 7:
`getCache` returns `null` — expiry is a hard filter at read time, not
advisory. -/
theorem cache_advisory_expiry_cex :
    ((getCache (setCache ⟨[], false, false, false⟩ "pyperf_d" (Val.vint 7) 1000 0)
        "pyperf_d" 1001).1 ≠ Val.vint 7) ∧
    ((getCache (setCache ⟨[], false, false, false⟩ "pyperf_d" (Val.vint 7) 1000 0)
        "pyperf_d" 1001).1 = Val.vnull) ∧
    (∃ x ∈ (getCacheStats (setCache ⟨[], false, false, false⟩ "pyperf_d" (Val.vint 7) 1000 0)
        1001).entries, x.key = "pyperf_d" ∧ x.expired = true) := by
  decide

/-- C1 (amended): after `write(k, v, t)` (with the storage backend healthy),
`read(k)` returns `v` while `age = now - writtenAt ≤ t`; once `age > t`,
`stats()` reports the entry's `expired` flag as `true`, and `read(k)`
returns `null` and removes the entry from storage — expiry is enforced at
read time by `getCache`, not merely advisory. -/
theorem cache_expiry_enforced_at_read (ls : LS) (key : String) (v : Val)
    (ttl now0 now1 : Int)
    (hS : ls.failSet = false) (hG : ls.failGet = false) (hR : ls.failRemove = false) :
    (now1 - now0 ≤ ttl →
      getCache (setCache ls key v ttl now0) key now1 = (v, setCache ls key v ttl now0)) ∧
    (now1 - now0 > ttl → jsStartsWith key "pyperf_" = true →
      (∃ x ∈ (getCacheStats (setCache ls key v ttl now0) now1).entries,
        x.key = key ∧ x.expired = true) ∧
      (getCache (setCache ls key v ttl now0) key now1).1 = Val.vnull ∧
      (getCache (setCache ls key v ttl now0) key now1).2.getItem key = Except.ok none) := by
  obtain ⟨hfg, hfr, hfind⟩ := setCache_fields ls key v ttl now0 hS
  constructor
  · intro h
    exact getCache_setCache_fresh ls key v ttl now0 now1 hS hG (by omega)
  · intro hexp hpre
    refine ⟨?_, ?_, ?_⟩
    · have hkey_mem : key ∈ (setCache ls key v ttl now0).keys :=
        List.mem_map_of_mem _ (List.mem_of_find?_eq_some hfind)
      have hpres := keys_present (setCache ls key v ttl now0) (hfg.trans hG)
      have hgi := getItem_setCache ls key v ttl now0 hS hG
      obtain ⟨x, hx, hk, he⟩ := statsGo_mem (setCache ls key v ttl now0) now1
        (setCache ls key v ttl now0).keys
        ⟨(setCache ls key v ttl now0).keys.length, 0, 0, []⟩
        key v now0 ttl hpres hkey_mem hpre hgi
      exact ⟨x, hx, hk, by rw [he]; simp [hexp]⟩
    · rw [getCache_setCache_expired ls key v ttl now0 now1 hS hG hR hexp]
    · rw [getCache_setCache_expired ls key v ttl now0 now1 hS hG hR hexp]
      simp [LS.getItem, hfg.trans hG, find?_filter_ne]

theorem cache_expiry_enforced_at_read_witness :
    (getCache (setCache ⟨[], false, false, false⟩ "pyperf_a" (Val.vint 7) 1000 0)
      "pyperf_a" 1 = (Val.vint 7, setCache ⟨[], false, false, false⟩ "pyperf_a" (Val.vint 7) 1000 0)) ∧
    ((getCache (setCache ⟨[], false, false, false⟩ "pyperf_a" (Val.vint 7) 1000 0)
      "pyperf_a" 1001).1 = Val.vnull) :=
  ⟨(cache_expiry_enforced_at_read ⟨[], false, false, false⟩ "pyperf_a" (Val.vint 7)
      1000 0 1 rfl rfl rfl).1 (by decide),
   ((cache_expiry_enforced_at_read ⟨[], false, false, false⟩ "pyperf_a" (Val.vint 7)
      1000 0 1001 rfl rfl rfl).2 (by decide) (by decide)).2.1⟩

/-- C2 (counterexample): with a fresh, unexpired dashboard cache entry and
`forceRefresh = false`, `fetchDashboardData` DOES invoke the loader
(`fetchDashboardDataFromAPI`): the API fetch is dispatched in the background
even on a live cache hit. -/
theorem fetch_cache_hit_invokes_loader_cex :
    (truthy (getCache
        (setCache ⟨[], false, false, false⟩ getDashboardCacheKey
          (Val.vobjCons "total_hosts" (Val.vint 3) Val.vobjNil) 300000 0)
        getDashboardCacheKey 500).1 = true) ∧
    ((fetchDashboardData ⟨Val.vnull, none, Val.vnull, false, false, false, none⟩
        (setCache ⟨[], false, false, false⟩ getDashboardCacheKey
          (Val.vobjCons "total_hosts" (Val.vint 3) Val.vobjNil) 300000 0)
        500 false).apiInvoked = true) := by
  decide

/-- C2 (amended): with an unexpired (truthy) cached entry and
`forceRefresh = false`, the fetch actions install the cached value
synchronously (without raising the loading flag) AND dispatch the backend
API fetch in the background — stale-while-revalidate, not a pure cache hit:
the loader is always invoked. -/
theorem fetch_cache_hit_swr (st : StoreState) (ls : LS) (now : Int)
    (hostname : String) (hours : Int)
    (hD : truthy (getCache ls getDashboardCacheKey now).1 = true)
    (hH : truthy (getCache ls (getHostMetricsCacheKey hostname hours) now).1 = true) :
    (fetchDashboardData st ls now false).state.dashboardData =
      (getCache ls getDashboardCacheKey now).1 ∧
    (fetchDashboardData st ls now false).state.usingCachedData = true ∧
    (fetchDashboardData st ls now false).state.isLoadingDashboard = st.isLoadingDashboard ∧
    (fetchDashboardData st ls now false).state.lastUpdate = some now ∧
    (fetchDashboardData st ls now false).apiInvoked = true ∧
    (fetchDashboardData st ls now false).apiInBackground = true ∧
    (fetchHostMetrics st ls hostname hours now false).state.currentHostMetrics =
      (getCache ls (getHostMetricsCacheKey hostname hours) now).1 ∧
    (fetchHostMetrics st ls hostname hours now false).state.isLoadingHostDetail =
      st.isLoadingHostDetail ∧
    (fetchHostMetrics st ls hostname hours now false).apiInvoked = true ∧
    (fetchHostMetrics st ls hostname hours now false).apiInBackground = true := by
  simp [fetchDashboardData, fetchHostMetrics, hD, hH]

theorem fetch_cache_hit_swr_witness :
    ((fetchDashboardData ⟨Val.vnull, none, Val.vnull, false, false, false, none⟩
        (setCache (setCache ⟨[], false, false, false⟩ getDashboardCacheKey
            (Val.vobjCons "total_hosts" (Val.vint 3) Val.vobjNil) 300000 0)
          (getHostMetricsCacheKey "h1" 24) (Val.vint 5) 180000 0)
        500 false).apiInBackground = true) ∧
    ((fetchHostMetrics ⟨Val.vnull, none, Val.vnull, false, false, false, none⟩
        (setCache (setCache ⟨[], false, false, false⟩ getDashboardCacheKey
            (Val.vobjCons "total_hosts" (Val.vint 3) Val.vobjNil) 300000 0)
          (getHostMetricsCacheKey "h1" 24) (Val.vint 5) 180000 0)
        "h1" 24 500 false).apiInvoked = true) :=
  ⟨(fetch_cache_hit_swr ⟨Val.vnull, none, Val.vnull, false, false, false, none⟩
      (setCache (setCache ⟨[], false, false, false⟩ getDashboardCacheKey
          (Val.vobjCons "total_hosts" (Val.vint 3) Val.vobjNil) 300000 0)
        (getHostMetricsCacheKey "h1" 24) (Val.vint 5) 180000 0)
      500 "h1" 24 (by decide) (by decide)).2.2.2.2.2.1,
   (fetch_cache_hit_swr ⟨Val.vnull, none, Val.vnull, false, false, false, none⟩
      (setCache (setCache ⟨[], false, false, false⟩ getDashboardCacheKey
          (Val.vobjCons "total_hosts" (Val.vint 3) Val.vobjNil) 300000 0)
        (getHostMetricsCacheKey "h1" 24) (Val.vint 5) 180000 0)
      500 "h1" 24 (by decide) (by decide)).2.2.2.2.2.2.2.2.1⟩

/-! ### Lemmas: `cleanupExpiredCache` -/

lemma getCache_snd_cases (ls : LS) (key : String) (now : Int) :
    (getCache ls key now).2 = ls ∨
    (getCache ls key now).2 =
      { ls with store := ls.store.filter (fun p => !(p.1 == key)) } := by
  cases hfg : ls.failGet with
  | true =>
    left
    simp [getCache, getCacheE, LS.getItem, hfg, Bind.bind, Except.bind]
  | false =>
    cases hf : ls.store.find? (fun p => p.1 == key) with
    | none =>
      left
      simp [getCache, getCacheE, LS.getItem, hfg, hf, Bind.bind, Except.bind,
        Pure.pure, Except.pure]
    | some p =>
      cases hp2 : p.2 with
      | corrupt raw =>
        left
        simp [getCache, getCacheE, LS.getItem, hfg, hf, hp2, parseStored,
          Bind.bind, Except.bind]
      | item d ts ttl =>
        by_cases hexp : now - ts > ttl
        · cases hfr : ls.failRemove with
          | true =>
            left
            simp [getCache, getCacheE, LS.getItem, hfg, hf, hp2, parseStored, hexp,
              LS.removeItem, hfr, Bind.bind, Except.bind, Functor.map, Except.map]
          | false =>
            right
            simp [getCache, getCacheE, LS.getItem, hfg, hf, hp2, parseStored, hexp,
              LS.removeItem, hfr, Bind.bind, Except.bind, Functor.map, Except.map,
              Pure.pure, Except.pure]
        · left
          simp [getCache, getCacheE, LS.getItem, hfg, hf, hp2, parseStored, hexp,
            Bind.bind, Except.bind, Pure.pure, Except.pure]

lemma getCache_snd_flags (ls : LS) (key : String) (now : Int) :
    (getCache ls key now).2.failGet = ls.failGet ∧
    (getCache ls key now).2.failSet = ls.failSet ∧
    (getCache ls key now).2.failRemove = ls.failRemove := by
  rcases getCache_snd_cases ls key now with h | h <;> rw [h] <;> exact ⟨rfl, rfl, rfl⟩

lemma getCache_snd_store_sub (ls : LS) (key : String) (now : Int)
    (x : String × Stored) (hx : x ∈ (getCache ls key now).2.store) : x ∈ ls.store := by
  rcases getCache_snd_cases ls key now with h | h
  · rwa [h] at hx
  · rw [h] at hx
    exact (List.mem_filter.mp hx).1

lemma getCache_snd_nodup (ls : LS) (key : String) (now : Int)
    (hnd : (ls.store.map Prod.fst).Nodup) :
    ((getCache ls key now).2.store.map Prod.fst).Nodup := by
  rcases getCache_snd_cases ls key now with h | h
  · rwa [h]
  · rw [h]
    exact hnd.sublist ((List.filter_sublist _).map Prod.fst)

lemma find?_of_mem_nodup (st : List (String × Stored))
    (hnd : (st.map Prod.fst).Nodup) (k : String) (s : Stored)
    (hm : (k, s) ∈ st) : st.find? (fun p => p.1 == k) = some (k, s) := by
  induction st with
  | nil => simp at hm
  | cons p rest ih =>
    rcases List.mem_cons.mp hm with h | h
    · subst h
      exact List.find?_cons_of_pos _ (by simp)
    · have hne : ¬(p.1 == k) = true := by
        intro hpk
        have hpk' : p.1 = k := by simpa using hpk
        have hk_mem : k ∈ rest.map Prod.fst := by
          rw [← show ((k, s) : String × Stored).1 = k from rfl]
          exact List.mem_map_of_mem _ h
        rw [List.map_cons, List.nodup_cons, hpk'] at hnd
        exact hnd.1 hk_mem
      have hstep : List.find? (fun q => q.1 == k) (p :: rest) =
          List.find? (fun q => q.1 == k) rest := List.find?_cons_of_neg _ hne
      rw [hstep]
      exact ih (by rw [List.map_cons, List.nodup_cons] at hnd; exact hnd.2) h

lemma getCache_removes_expired (ls : LS) (key : String) (now : Int)
    (d : Val) (ts ttl : Int)
    (hG : ls.failGet = false) (hR : ls.failRemove = false)
    (hfind : ls.store.find? (fun p => p.1 == key) = some (key, Stored.item d ts ttl))
    (hexp : now - ts > ttl) :
    (getCache ls key now).2 =
      { ls with store := ls.store.filter (fun p => !(p.1 == key)) } := by
  simp [getCache, getCacheE, LS.getItem, hG, hfind, parseStored, hexp, LS.removeItem, hR,
    Bind.bind, Except.bind, Pure.pure, Except.pure, Functor.map, Except.map]

lemma cleanupGo_store_sub (now : Int) :
    ∀ (l : List String) (acc : Nat × LS) (x : String × Stored),
      x ∈ (cleanupGo now l acc).2.store → x ∈ acc.2.store := by
  intro l
  induction l with
  | nil => intro acc x hx; simpa [cleanupGo] using hx
  | cons k rest ih =>
    intro acc x hx
    unfold cleanupGo at hx
    by_cases hk : jsStartsWith k "pyperf_" = true
    · rw [if_pos hk] at hx
      exact getCache_snd_store_sub acc.2 k now x (ih _ x hx)
    · rw [if_neg hk] at hx
      exact ih acc x hx

lemma cleanupGo_removes_expired (now : Int) :
    ∀ (l : List String) (acc : Nat × LS),
      acc.2.failGet = false → acc.2.failRemove = false →
      (acc.2.store.map Prod.fst).Nodup →
      ∀ (k : String) (d : Val) (ts ttl : Int),
        (k, Stored.item d ts ttl) ∈ (cleanupGo now l acc).2.store →
        k ∈ l → jsStartsWith k "pyperf_" = true → now - ts ≤ ttl := by
  intro l
  induction l with
  | nil => intro acc _ _ _ k d ts ttl _ hk; simp at hk
  | cons k0 rest ih =>
    intro acc hG hR hnd k d ts ttl hmem hk hpre
    unfold cleanupGo at hmem
    by_cases hk0 : jsStartsWith k0 "pyperf_" = true
    · rw [if_pos hk0] at hmem
      have hflags := getCache_snd_flags acc.2 k0 now
      by_cases hkk : k = k0
      · subst hkk
        by_contra hexp'
        have hexp : now - ts > ttl := by omega
        have h1 : (k, Stored.item d ts ttl) ∈ (getCache acc.2 k now).2.store :=
          cleanupGo_store_sub now rest _ _ hmem
        have h0 : (k, Stored.item d ts ttl) ∈ acc.2.store :=
          getCache_snd_store_sub acc.2 k now _ h1
        have hfind := find?_of_mem_nodup acc.2.store hnd k (Stored.item d ts ttl) h0
        have hrm := getCache_removes_expired acc.2 k now d ts ttl hG hR hfind hexp
        rw [hrm] at h1
        have := (List.mem_filter.mp h1).2
        simp at this
      · have hk2 : k ∈ rest := by
          rcases List.mem_cons.mp hk with h | h
          · exact absurd h hkk
          · exact h
        exact ih ((if (hasValidCache acc.2 k0 now).1 then acc.1 else acc.1 + 1,
            (hasValidCache acc.2 k0 now).2))
          (hflags.1.trans hG) (hflags.2.2.trans hR)
          (getCache_snd_nodup acc.2 k0 now hnd) k d ts ttl hmem hk2 hpre
    · rw [if_neg hk0] at hmem
      have hk2 : k ∈ rest := by
        rcases List.mem_cons.mp hk with h | h
        · subst h; exact absurd hpre hk0
        · exact h
      exact ih acc hG hR hnd k d ts ttl hmem hk2 hpre

/-- C9 (counterexample): a namespaced entry whose stored string fails to
parse is counted by `cleanupExpiredCache` yet not removed: the call returns
count 1 while the storage is left unchanged (0 entries removed), so the
returned count does not equal the number of entries removed. -/
theorem cleanup_count_cex :
    cleanupExpiredCache ⟨[("pyperf_x", Stored.corrupt "oops")], false, false, false⟩ 0 =
      (1, ⟨[("pyperf_x", Stored.corrupt "oops")], false, false, false⟩) := by
  decide

/-- C9 (amended): `cleanupExpired()` scans the namespaced (`pyperf_`)
entries and removes every expired well-formed one; the returned count is
the number of namespaced entries whose read reported a miss, which equals
the number removed when every namespaced entry parses and holds non-null
data (but can exceed it, e.g. for corrupt entries).  The end-to-end
scenario holds: after `write("pyperf_a", {x:1}, 1000)`, an immediate read
returns `{x:1}`; at 1100 ms, `cleanupExpired()` removes the entry and
returns 1, and a subsequent read returns absent.  In general, no expired
well-formed namespaced entry survives a cleanup (over a healthy backend
with duplicate-free keys). -/
theorem cleanup_scenario_and_removes_expired :
    (getCache (setCache ⟨[], false, false, false⟩ "pyperf_a"
        (Val.vobjCons "x" (Val.vint 1) Val.vobjNil) 1000 0) "pyperf_a" 0 =
      (Val.vobjCons "x" (Val.vint 1) Val.vobjNil,
       setCache ⟨[], false, false, false⟩ "pyperf_a"
        (Val.vobjCons "x" (Val.vint 1) Val.vobjNil) 1000 0)) ∧
    (cleanupExpiredCache (setCache ⟨[], false, false, false⟩ "pyperf_a"
        (Val.vobjCons "x" (Val.vint 1) Val.vobjNil) 1000 0) 1100 =
      (1, ⟨[], false, false, false⟩)) ∧
    ((getCache ⟨[], false, false, false⟩ "pyperf_a" 1200).1 = Val.vnull) ∧
    (∀ (ls : LS) (now : Int) (k : String) (d : Val) (ts ttl : Int),
      ls.failGet = false → ls.failRemove = false →
      (ls.store.map Prod.fst).Nodup →
      (k, Stored.item d ts ttl) ∈ (cleanupExpiredCache ls now).2.store →
      jsStartsWith k "pyperf_" = true → now - ts ≤ ttl) := by
  refine ⟨by decide, by decide, by decide, ?_⟩
  intro ls now k d ts ttl hG hR hnd hmem hpre
  have hsub : (k, Stored.item d ts ttl) ∈ ls.store :=
    cleanupGo_store_sub now ls.keys (0, ls) _ hmem
  have hkeys : k ∈ ls.keys := List.mem_map_of_mem _ hsub
  exact cleanupGo_removes_expired now ls.keys (0, ls) hG hR hnd k d ts ttl hmem hkeys hpre

theorem cleanup_scenario_and_removes_expired_witness :
    (cleanupExpiredCache (setCache ⟨[], false, false, false⟩ "pyperf_a"
        (Val.vobjCons "x" (Val.vint 1) Val.vobjNil) 1000 0) 1100 =
      (1, ⟨[], false, false, false⟩)) ∧
    ((5 : Int) - 0 ≤ 10) :=
  ⟨cleanup_scenario_and_removes_expired.2.1,
   cleanup_scenario_and_removes_expired.2.2.2
     ⟨[("pyperf_b", Stored.item Val.vnull 0 10)], false, false, false⟩ 5
     "pyperf_b" Val.vnull 0 10 rfl rfl (by decide) (by decide) (by decide)⟩

end PyPerfViewer
